import Mathlib

/-!
Verification of the recipe-management service core (recipe creation write
path, request validator, and the OpenRouter enrichment client) against its
natural-language specification.

The TypeScript sources are shallowly embedded:
  * untyped JSON request bodies become the inductive `JValue`;
  * property access on a possibly-null value is the fallible `jgetE`
    (a JS TypeError is the `Except.error` case), so "the validator never
    throws" is a real statement about the embedding;
  * the Supabase-backed write sequence of RecipeService.createRecipe becomes
    explicit state passing over `DbState`, with the environment's possible
    insert failures given by a `DbFaults` oracle (the code branches only on
    the recipe-insert and ingredient-insert errors, and on an audit-insert
    throw, so exactly those are modelled as faults);
  * the OpenRouter client's retry loop becomes a recursion indexed by the
    number of retries still allowed, with the fetch outcomes and the
    Math.random() draws supplied as oracles.
-/

/-- A JavaScript/JSON runtime value, as seen by the untyped route handlers.
`num none` models the JS number NaN (the only NaN-distinction the validator
inspects, via isNaN). -/
inductive JValue where
  | null
  | undefVal
  | bool (b : Bool)
  | num (q : Option Rat)
  | str (s : String)
  | arr (elems : List JValue)
  | obj (fields : List (String × JValue))

/-- JS String.prototype.trim: strip whitespace from both ends.  Defined over
the character list (evaluable in the kernel, unlike core String.trim). -/
def jsTrim (s : String) : String :=
  ⟨((s.data.dropWhile Char.isWhitespace).reverse.dropWhile Char.isWhitespace).reverse⟩

/-- JS truthiness of a value. -/
def truthy : JValue → Bool
  | .null => false
  | .undefVal => false
  | .bool b => b
  | .num none => false
  | .num (some q) => q != 0
  | .str s => s != ""
  | .arr _ => true
  | .obj _ => true

/-- JS `typeof v === 'object'` (true for null, arrays and plain objects). -/
def typeofIsObject : JValue → Bool
  | .null => true
  | .arr _ => true
  | .obj _ => true
  | _ => false

/-- JS `typeof v === 'string'`. -/
def isStringV : JValue → Bool
  | .str _ => true
  | _ => false

/-- Property read `v[k]`: throws a TypeError when `v` is null or undefined
(the `Except.error` case), yields the field (or undefined) otherwise.
Reads on primitives box and yield undefined; the validator code never reads a
named own property off an array either, so arrays also yield undefined. -/
def jgetE : JValue → String → Except String JValue
  | .null, k => .error ("TypeError: cannot read properties of null (reading " ++ k ++ ")")
  | .undefVal, k => .error ("TypeError: cannot read properties of undefined (reading " ++ k ++ ")")
  | .obj fields, k => .ok ((List.lookup k fields).getD .undefVal)
  | _, _ => .ok .undefVal

/-- Result type of the recipe validator: `valid`, or a field-path → message
map (modelled as the assignment list in insertion order). -/
inductive ValidationResult where
  | valid
  | invalid (errors : List (String × String))
deriving Repr, DecidableEq

/-- isUuid from recipe.validator: a string matching the regex
`36 characters, each a hex digit or a hyphen` (the regex class [0-9a-fA-F-]
repeated exactly 36 times, anchored at both ends). -/
def isUuidChar (c : Char) : Bool :=
  c.isDigit || ('a' ≤ c && c ≤ 'f') || ('A' ≤ c && c ≤ 'F') || c == '-'

/-- isUuid: `typeof value === 'string' && /^[0-9a-fA-F-]{36}$/.test(value)`. -/
def isUuid : JValue → Bool
  | .str s => s.length == 36 && s.data.all isUuidChar
  | _ => false

/-- A canonical 36-character UUID string, modelled from the spec's words
("well-formed 36-character UUID"): hyphens exactly at positions 8, 13, 18
and 23, hex digits everywhere else.  This is the spec-side notion, to be
compared with the source's charset-only `isUuid`. -/
def wellFormedUuid36 (s : String) : Bool :=
  s.length == 36 &&
    (List.range 36).all (fun i =>
      let c := s.toList.getD i ' '
      if i = 8 ∨ i = 13 ∨ i = 18 ∨ i = 23 then c == '-'
      else c.isDigit || ('a' ≤ c && c ≤ 'f') || ('A' ≤ c && c ≤ 'F'))

/-- The ingredient checks of validateIngredient after the object guard, as a
pure function of the five property values.  The JS reads these properties
lazily behind short-circuiting guards; property reads on a non-null object
are effect-free, so hoisting them preserves the result. -/
def ingredientFieldError (nameV qV uidV utV nnV : JValue) (index : Nat) : Option String :=
  let pre := "ingredients[" ++ toString index ++ "]"
  match nameV with
  | .str nm =>
    if (jsTrim nm).length = 0 then some (pre ++ ".name is required")
    else if nm.length > 200 then some (pre ++ ".name too long")
    else
      match qV with
      | .num (some q) =>
        if q ≤ 0 then some (pre ++ ".quantity must be a number > 0")
        else if truthy uidV && !(isUuid uidV) then some (pre ++ ".unit_id must be a valid UUID")
        else if truthy utV && !(isStringV utV) then some (pre ++ ".unit_text must be a string")
        else if truthy nnV && !(isStringV nnV) then
          some (pre ++ ".normalized_name must be a string")
        else none
      | _ => some (pre ++ ".quantity must be a number > 0")
  | _ => some (pre ++ ".name is required")

/-- validateIngredient: `null` passes the typeof-object test in JS but is
rejected by the explicit `item === null` check, so only arrays and objects
reach the field checks. -/
def validateIngredient (item : JValue) (index : Nat) : Except String (Option String) :=
  match item with
  | .arr _ | .obj _ => do
    let nameV ← jgetE item "name"
    let qV ← jgetE item "quantity"
    let uidV ← jgetE item "unit_id"
    let utV ← jgetE item "unit_text"
    let nnV ← jgetE item "normalized_name"
    pure (ingredientFieldError nameV qV uidV utV nnV index)
  | _ => pure (some ("ingredients[" ++ toString index ++ "] must be an object"))

/-- The `recipe_data.ingredients.forEach` loop: each failing entry records a
message under the key for its index, in index order. -/
def checkIngredientsFrom : List JValue → Nat → Except String (List (String × String))
  | [], _ => pure []
  | ing :: rest, idx => do
    let e ← validateIngredient ing idx
    let restErrs ← checkIngredientsFrom rest (idx + 1)
    match e with
    | some msg => pure (("recipe_data.ingredients[" ++ toString idx ++ "]", msg) :: restErrs)
    | none => pure restErrs

/-- The per-step check of the `recipe_data.steps.forEach` loop. -/
def stepError (s : JValue) : Option String :=
  match s with
  | .str t =>
    if t.length < 10 then some "step too short (min 10 chars)"
    else if t.length > 500 then some "step too long (max 500 chars)"
    else none
  | _ => some "step must be a string"

/-- The `recipe_data.steps.forEach` loop, recording per-index messages. -/
def checkStepsFrom : List JValue → Nat → List (String × String)
  | [], _ => []
  | s :: rest, idx =>
    match stepError s with
    | some msg => ("recipe_data.steps[" ++ toString idx ++ "]", msg) :: checkStepsFrom rest (idx + 1)
    | none => checkStepsFrom rest (idx + 1)

/-- The `title` checks of validateCreateRecipeCommand (`!title`, the typeof
test and the empty-trim test collapse to the two string branches shown). -/
def titleCheck (v : JValue) : List (String × String) :=
  match v with
  | .str t =>
    if (jsTrim t).length = 0 then [("title", "title is required")]
    else if t.length > 300 then [("title", "title too long (max 300)")]
    else []
  | _ => [("title", "title is required")]

/-- The `raw_text` checks of validateCreateRecipeCommand. -/
def rawTextCheck (v : JValue) : List (String × String) :=
  match v with
  | .str r => if (jsTrim r).length = 0 then [("raw_text", "raw_text is required")] else []
  | _ => [("raw_text", "raw_text is required")]

/-- The `recipe_data.title` checks. -/
def rdTitleCheck (v : JValue) : List (String × String) :=
  match v with
  | .str t => if (jsTrim t).length = 0 then [("recipe_data.title", "recipe_data.title required")] else []
  | _ => [("recipe_data.title", "recipe_data.title required")]

/-- `Array.isArray(recipe_data.ingredients) && length > 0`, then the per-entry
loop. -/
def ingredientsCheck (v : JValue) : Except String (List (String × String)) :=
  match v with
  | .arr ings =>
    if ings.length = 0 then pure [("recipe_data.ingredients", "ingredients must be a non-empty array")]
    else checkIngredientsFrom ings 0
  | _ => pure [("recipe_data.ingredients", "ingredients must be a non-empty array")]

/-- `Array.isArray(recipe_data.steps)`, then the per-step loop. -/
def stepsCheck (v : JValue) : List (String × String) :=
  match v with
  | .arr steps => checkStepsFrom steps 0
  | _ => [("recipe_data.steps", "steps must be an array of strings")]

/-- The recipe_data block: `!recipe_data || typeof recipe_data !== 'object'`
admits exactly arrays and objects (null is falsy). -/
def recipeDataCheck (rdV : JValue) : Except String (List (String × String)) :=
  match rdV with
  | .arr _ | .obj _ => do
    let t ← jgetE rdV "title"
    let ings ← jgetE rdV "ingredients"
    let steps ← jgetE rdV "steps"
    let e2 ← ingredientsCheck ings
    pure (rdTitleCheck t ++ e2 ++ stepsCheck steps)
  | _ => pure [("recipe_data", "recipe_data is required and must be an object")]

/-- validateCreateRecipeCommand over an arbitrary runtime value.  The body
guard `!body || typeof body !== 'object'` admits exactly arrays and objects.
The error list keeps the source's insertion order: title, raw_text, then the
recipe_data block. -/
def validateCreateRecipeCommand (body : JValue) : Except String ValidationResult :=
  match body with
  | .arr _ | .obj _ => do
    let titleV ← jgetE body "title"
    let rawV ← jgetE body "raw_text"
    let rdV ← jgetE body "recipe_data"
    let rdErrs ← recipeDataCheck rdV
    let errs := titleCheck titleV ++ rawTextCheck rawV ++ rdErrs
    pure (if errs.isEmpty then .valid else .invalid errs)
  | _ => pure (.invalid [("body", "Request body must be a JSON object")])

/-! ## RecipeService.createRecipe: the recipe-creation write path

The Supabase tables touched by createRecipe become explicit state; the ids
produced by uuidv4 become an oracle `uuid` (index 0 is the recipe id, index
i+1 the id of the i-th ingredient row).  The code branches on exactly three
environment failures, collected in `DbFaults`: the recipe-insert error, the
ingredient-bulk-insert error, and a thrown audit insert (caught and
swallowed).  The compensating `delete().eq('id', recipeId)` is not checked
for errors by the code, so it is modelled by its database semantics: removal
of every recipe row with that id. -/

/-- An ingredient entry inside the structured recipe_data (API-level DTO). -/
structure RecipeDataIngredientDTO where
  name : String
  quantity : Rat
  unit_id : Option String := none
  unit_text : Option String := none
  normalized_name : Option String := none
deriving Repr, DecidableEq

/-- Structured recipe_data submitted by API clients. -/
structure RecipeDataDTO where
  title : String
  ingredients : List RecipeDataIngredientDTO
  steps : List String
deriving Repr, DecidableEq

/-- The create-recipe command.  `owner_user_id_in_body` models a stray
`owner_user_id` field that a client may have supplied in the request body
(the body object is passed to the service as-is); the service never reads
it. -/
structure CreateRecipeCommand where
  title : String
  raw_text : String
  recipe_data : RecipeDataDTO
  owner_user_id_in_body : Option String := none
deriving Repr, DecidableEq

/-- A persisted row of the `recipes` table (the columns createRecipe writes). -/
structure RecipeRow where
  id : String
  owner_user_id : String
  title : String
  raw_text : String
  recipe_data : RecipeDataDTO
deriving Repr, DecidableEq

/-- A persisted row of the `ingredients` table. -/
structure IngredientRow where
  id : String
  name : String
  normalized_name : Option String
  quantity : Rat
  recipe_id : String
  unit_id : Option String
  unit_text : Option String
deriving Repr, DecidableEq

/-- A persisted row of the `recipe_audit` table (the fields the code writes;
the meta payload is `{ title: cmd.title }`). -/
structure RecipeAuditRow where
  action : String
  anonymized_id : Option String
  recipe_id : String
  user_id : String
  meta_title : String
deriving Repr, DecidableEq

/-- The state of the three tables createRecipe touches. -/
structure DbState where
  recipes : List RecipeRow
  ingredients : List IngredientRow
  recipe_audit : List RecipeAuditRow
deriving Repr, DecidableEq

/-- Which of the awaited database operations fail in a given run.  The
service only inspects the error of the recipe insert and of the ingredient
bulk insert (each carrying a message), and catches a thrown audit insert. -/
structure DbFaults where
  recipeInsertError : Option String := none
  ingredientsInsertError : Option String := none
  auditInsertThrows : Bool := false
deriving Repr, DecidableEq

/-- The response DTO assembled by createRecipe: the inserted recipe row's
fields, spread and then overridden with `recipe_data := cmd.recipe_data`,
the persisted ingredient rows, and `cached_nutrition := none`. -/
structure RecipeResponseDTO where
  id : String
  owner_user_id : String
  title : String
  raw_text : String
  recipe_data : RecipeDataDTO
  ingredients : List IngredientRow
  cached_nutrition : Option JValue

/-- One element of the ingredients bulk-insert payload
(`normalized_name ?? null`, `unit_id ?? null`, `unit_text ?? null` are the
Option values directly). -/
def mkIngredientRow (recipeId ingId : String) (ing : RecipeDataIngredientDTO) : IngredientRow :=
  { id := ingId, name := ing.name, normalized_name := ing.normalized_name,
    quantity := ing.quantity, recipe_id := recipeId,
    unit_id := ing.unit_id, unit_text := ing.unit_text }

/-- RecipeService.createRecipe: insert recipe row; on ingredient bulk-insert
failure delete the recipe row and rethrow; on success insert the audit row
(a thrown audit insert is swallowed) and assemble the response. -/
def createRecipe (faults : DbFaults) (uuid : Nat → String) (userId : String)
    (cmd : CreateRecipeCommand) (db : DbState) :
    Except String RecipeResponseDTO × DbState :=
  let recipeId := uuid 0
  match faults.recipeInsertError with
  | some m => (.error ("Failed to insert recipe: " ++ m), db)
  | none =>
    let row : RecipeRow :=
      { id := recipeId, owner_user_id := userId, title := cmd.title,
        raw_text := cmd.raw_text, recipe_data := cmd.recipe_data }
    let db1 : DbState := { db with recipes := db.recipes ++ [row] }
    let payload : List IngredientRow :=
      cmd.recipe_data.ingredients.enum.map
        (fun p => mkIngredientRow recipeId (uuid (p.1 + 1)) p.2)
    match faults.ingredientsInsertError with
    | some m =>
      let db2 : DbState :=
        { db1 with recipes := db1.recipes.filter (fun r => r.id != recipeId) }
      (.error ("Failed to insert ingredients: " ++ m), db2)
    | none =>
      let db2 : DbState := { db1 with ingredients := db1.ingredients ++ payload }
      let auditRow : RecipeAuditRow :=
        { action := "create", anonymized_id := none, recipe_id := recipeId,
          user_id := userId, meta_title := cmd.title }
      let db3 : DbState :=
        if faults.auditInsertThrows then db2
        else { db2 with recipe_audit := db2.recipe_audit ++ [auditRow] }
      (.ok { id := recipeId, owner_user_id := userId, title := cmd.title,
             raw_text := cmd.raw_text, recipe_data := cmd.recipe_data,
             ingredients := payload, cached_nutrition := none }, db3)

/-! ## The POST /api/v1/recipes route handler

The handler parses the body, validates it, verifies the bearer token,
resolves the internal user id through the `auth_user_map` table (creating a
users row with `user_id := authUserId` on first use), and calls
createRecipe with the resolved id and the body object. -/

/-- The external collaborators of the route: the token-verification result
and the contents of the `auth_user_map` table; `mappingFails` models a throw
while resolving/creating the mapping (returned as a 500).  The `users` and
`auth_user_map` writes on first use are not rows this development tracks;
`resolveUserId` captures the id they produce. -/
structure AuthEnv where
  tokenUser : Option String := none
  authUserMap : List (String × String) := []
  mappingFails : Bool := false

/-- The internal user id the handler resolves for an authenticated subject:
the mapped `user_id` when a mapping row exists, otherwise the id of the
users row it creates, which the code sets to the auth user id itself. -/
def resolveUserId (env : AuthEnv) (authUserId : String) : String :=
  match List.lookup authUserId env.authUserMap with
  | some uid => uid
  | none => authUserId

/-- What the route returns (status and payload collapsed per branch). -/
inductive ApiResult where
  | badJson
  | badRequest (errors : List (String × String))
  | unauthorized
  | serverError (msg : String)
  | created (resp : RecipeResponseDTO)

/-- Reading a typed command out of the validated body object, mirroring the
field reads the service performs on it (in TS the body is passed by
reference with a cast; this decode is the bridge into the typed model, and
also records a stray `owner_user_id` body field). -/
def jfieldOpt (v : JValue) (k : String) : JValue :=
  match v with
  | .obj fields => (List.lookup k fields).getD .undefVal
  | _ => .undefVal

/-- The string content of a value (validated fields are strings). -/
def asString (v : JValue) : String :=
  match v with
  | .str s => s
  | _ => ""

/-- An optional string field. -/
def asOptString (v : JValue) : Option String :=
  match v with
  | .str s => some s
  | _ => none

/-- Decode one ingredient entry of the body. -/
def decodeIngredient (v : JValue) : RecipeDataIngredientDTO :=
  { name := asString (jfieldOpt v "name")
    quantity := match jfieldOpt v "quantity" with
      | .num (some q) => q
      | _ => 0
    unit_id := asOptString (jfieldOpt v "unit_id")
    unit_text := asOptString (jfieldOpt v "unit_text")
    normalized_name := asOptString (jfieldOpt v "normalized_name") }

/-- Decode the structured recipe_data of the body. -/
def decodeRecipeData (v : JValue) : RecipeDataDTO :=
  { title := asString (jfieldOpt v "title")
    ingredients := match jfieldOpt v "ingredients" with
      | .arr xs => xs.map decodeIngredient
      | _ => []
    steps := match jfieldOpt v "steps" with
      | .arr xs => xs.map asString
      | _ => [] }

/-- Decode the whole body into the command the service receives. -/
def decodeCmd (body : JValue) : CreateRecipeCommand :=
  { title := asString (jfieldOpt body "title")
    raw_text := asString (jfieldOpt body "raw_text")
    recipe_data := decodeRecipeData (jfieldOpt body "recipe_data")
    owner_user_id_in_body := asOptString (jfieldOpt body "owner_user_id") }

/-- The POST /api/v1/recipes handler: parse (a `none` body is a JSON parse
failure), validate, authenticate, resolve the internal user id, create.
A validator throw (provably impossible) would surface as a 500. -/
def postRecipes (env : AuthEnv) (faults : DbFaults) (uuid : Nat → String)
    (body : Option JValue) (db : DbState) : ApiResult × DbState :=
  match body with
  | none => (.badJson, db)
  | some b =>
    match validateCreateRecipeCommand b with
    | .error m => (.serverError m, db)
    | .ok (.invalid errs) => (.badRequest errs, db)
    | .ok .valid =>
      match env.tokenUser with
      | none => (.unauthorized, db)
      | some authUserId =>
        if env.mappingFails then (.serverError "Failed to resolve user", db)
        else
          let userId := resolveUserId env authUserId
          match createRecipe faults uuid userId (decodeCmd b) db with
          | (.ok resp, db2) => (.created resp, db2)
          | (.error m, db2) => (.serverError m, db2)

/-! ## OpenRouterService: the nutrition-enrichment client

The error classes become the tagged type `ORError`; fetch outcomes per
attempt and the Math.random() draws are oracles; the retry loop
`retryWithBackoff` is translated with the invariant that its second index
equals `retries - attempt` (the loop throws when `attempt > retries` after
the increment, i.e. exactly when that difference has reached zero), which
makes the recursion structural. -/

/-- The error classes of OpenRouterService (tagged variants instead of
subclassing). -/
inductive ORError where
  | openRouter (msg : String) (code : String) (status : Option Nat)
  | authFailure (msg : String)
  | network (msg : String)
  | rateLimit (msg : String) (retryAfter : Option Int)
  | responseFormat (msg : String) (details : List String)
  | invalidInput (msg : String)
  | unsupported (msg : String)
deriving Repr, DecidableEq

/-- isRetriableError: only RateLimitError and NetworkError are retriable. -/
def isRetriableError : ORError → Bool
  | .rateLimit _ _ => true
  | .network _ => true
  | _ => false

/-- A chat message role. -/
inductive Role where
  | system
  | user
  | assistant
deriving Repr, DecidableEq

/-- A role-tagged message. -/
structure OpenRouterMessage where
  role : Role
  content : String
deriving Repr, DecidableEq

/-- The client configuration fields the verified behavior depends on
(`maxRetries` defaults to 3 as in the constructor). -/
structure ORConfig where
  maxRetries : Nat := 3
deriving Repr, DecidableEq

/-- An HTTP response as the client observes it: status, the Retry-After
header, the raw body text, and the parsed JSON body (`none` models a
res.json() failure). -/
structure HttpResponse where
  status : Nat
  retryAfterHeader : Option String := none
  bodyText : String := ""
  jsonBody : Option JValue := none

/-- Outcome of one fetch call: a thrown network/abort error, or a response. -/
inductive FetchOutcome where
  | throws (msg : String)
  | resp (r : HttpResponse)

/-- The longest leading run of decimal digits. -/
def leadingDigits : List Char → List Char
  | [] => []
  | c :: rest => if c.isDigit then c :: leadingDigits rest else []

/-- JS parseInt(s, 10): skip leading whitespace, read an optional sign and
then the longest digit prefix; NaN (here: none) when no digits follow. -/
def jsParseInt10 (s : String) : Option Int :=
  let cs := s.data.dropWhile Char.isWhitespace
  let signAndRest : Bool × List Char :=
    match cs with
    | '-' :: rest => (true, rest)
    | '+' :: rest => (false, rest)
    | _ => (false, cs)
  let ds := leadingDigits signAndRest.2
  if ds.isEmpty then none
  else
    let n : Nat := ds.foldl (fun acc c => acc * 10 + (c.toNat - 48)) 0
    some (if signAndRest.1 then -(n : Int) else (n : Int))

/-- `parseInt(res.headers.get('Retry-After') || '0', 10) || undefined`:
a missing header reads as "0"; a NaN parse or a parse of 0 both collapse to
undefined through the `|| undefined`. -/
def parseRetryAfter (header : Option String) : Option Int :=
  match jsParseInt10 (header.getD "0") with
  | none => none
  | some 0 => none
  | some k => some k

/-- `v?.[i]` on a (possibly non-array) value. -/
def jindexOpt (v : JValue) (i : Nat) : JValue :=
  match v with
  | .arr xs => xs.getD i .undefVal
  | _ => .undefVal

/-- `a ?? b`: b exactly when a is null or undefined. -/
def jcoalesce (a b : JValue) : JValue :=
  match a with
  | .null => b
  | .undefVal => b
  | _ => a

/-- `data?.output ?? data?.choices?.[0]?.message ?? data` from
handleOpenRouterResponse. -/
def candidateOf (data : JValue) : JValue :=
  jcoalesce (jfieldOpt data "output")
    (jcoalesce (jfieldOpt (jindexOpt (jfieldOpt data "choices") 0) "message") data)

/-- handleOpenRouterResponse: classify non-2xx statuses (401, 429 with the
parsed Retry-After, generic otherwise), reject unparsable JSON, and when a
response_format was sent prefer the structured candidate. -/
def handleOpenRouterResponse (res : HttpResponse) (hasResponseFormat : Bool) :
    Except ORError JValue :=
  if ¬ (200 ≤ res.status ∧ res.status ≤ 299) then
    if res.status = 401 then .error (.authFailure "Invalid API key")
    else if res.status = 429 then
      .error (.rateLimit "Rate limited by OpenRouter" (parseRetryAfter res.retryAfterHeader))
    else
      .error (.openRouter ("OpenRouter returned " ++ toString res.status ++ ": " ++ res.bodyText)
        "OPENROUTER_HTTP" (some res.status))
  else
    match res.jsonBody with
    | none => .error (.openRouter "Invalid JSON response from OpenRouter" "INVALID_JSON"
        (some res.status))
    | some data => .ok (if hasResponseFormat then candidateOf data else data)

/-- One attempt of sendMessage: a thrown fetch (timeout or transport) is
wrapped as a NetworkError, a response goes through
handleOpenRouterResponse. -/
def attemptOnce (outcomes : Nat → FetchOutcome) (hasResponseFormat : Bool) (n : Nat) :
    Except ORError JValue :=
  match outcomes n with
  | .throws m => .error (.network m)
  | .resp r => handleOpenRouterResponse r hasResponseFormat

/-- The retry loop.  `remaining` is `retries - attempt` for the source's
`attempt` counter (failures so far): the loop rethrows when the error is not
retriable or when `attempt > retries` after the increment, i.e. exactly when
`remaining` is zero at the failure.  Returns the result, the number of
attempts made, and the list of waits (in ms) before each retry, where the
wait before retry number n is `min 2000 (300 * 2 ^ n) + rand n * 100` with
`rand n` the Math.random() draw for that retry. -/
def retryAux {α : Type} (fn : Nat → Except ORError α) (rand : Nat → ℚ) :
    Nat → Nat → Except ORError α × Nat × List ℚ
  | 0, attempt =>
    -- with no budget left, retriable and non-retriable errors alike rethrow
    match fn attempt with
    | .ok a => (.ok a, attempt + 1, [])
    | .error e => (.error e, attempt + 1, [])
  | r + 1, attempt =>
    match fn attempt with
    | .ok a => (.ok a, attempt + 1, [])
    | .error e =>
      if isRetriableError e = false then (.error e, attempt + 1, [])
      else
        let wait : ℚ := min 2000 (300 * 2 ^ (attempt + 1)) + rand (attempt + 1) * 100
        let rest := retryAux fn rand r (attempt + 1)
        (rest.1, rest.2.1, wait :: rest.2.2)

/-- retryWithBackoff(fn, retries): the loop starting at attempt 0. -/
def retryWithBackoff {α : Type} (fn : Nat → Except ORError α) (retries : Nat)
    (rand : Nat → ℚ) : Except ORError α × Nat × List ℚ :=
  retryAux fn rand retries 0

/-- sendMessage: reject an empty message list, then run the attempt through
the backoff loop with the configured maxRetries. -/
def sendMessage (cfg : ORConfig) (messages : List OpenRouterMessage)
    (hasResponseFormat : Bool) (outcomes : Nat → FetchOutcome) (rand : Nat → ℚ) :
    Except ORError JValue × Nat × List ℚ :=
  if messages.isEmpty then (.error (.invalidInput "messages must be a non-empty array"), 0, [])
  else retryWithBackoff (attemptOnce outcomes hasResponseFormat) cfg.maxRetries rand

/-- An AJV validator as the client uses it: a boolean verdict and, after a
failed run, the reported error objects (kept abstract as strings). -/
structure AjvValidator where
  valid : JValue → Bool
  errors : JValue → List String

/-- A structured-response specification (`type` must be the literal
'json_schema'; the schema itself stays an opaque JSON value). -/
structure ResponseFormatSpec where
  typeIsJsonSchema : Bool := true
  name : String
  strict : Bool := true
  schema : JValue

/-- `res?.output ?? res`: the payload sendStructuredMessage validates. -/
def structuredPayloadOf (res : JValue) : JValue :=
  jcoalesce (jfieldOpt res "output") res

/-- sendStructuredMessage: require the json_schema format tag, delegate to
sendMessage (which owns all retrying), resolve a validator from the
registry or by compiling the schema (`compile` returning none models an
ajv.compile throw), validate the payload, and reject a mismatch with a
ResponseFormatError carrying the validator's errors.  Attempt counts and
waits are those of the inner sendMessage: nothing after it issues HTTP
requests. -/
def sendStructuredMessage (cfg : ORConfig) (validators : List (String × AjvValidator))
    (compile : JValue → Option AjvValidator) (messages : List OpenRouterMessage)
    (rf : ResponseFormatSpec) (outcomes : Nat → FetchOutcome) (rand : Nat → ℚ) :
    Except ORError JValue × Nat × List ℚ :=
  if ¬ rf.typeIsJsonSchema then
    (.error (.invalidInput "responseFormat must be json_schema"), 0, [])
  else
    let r := sendMessage cfg messages true outcomes rand
    match r.1 with
    | .error e => (.error e, r.2.1, r.2.2)
    | .ok res =>
      let validatorO : Option AjvValidator :=
        match List.lookup rf.name validators with
        | some v => some v
        | none => compile rf.schema
      match validatorO with
      | none => (.error (.invalidInput "Invalid response schema provided"), r.2.1, r.2.2)
      | some v =>
        let payload := structuredPayloadOf res
        if v.valid payload then (.ok payload, r.2.1, r.2.2)
        else (.error (.responseFormat "Response did not match schema" (v.errors payload)),
          r.2.1, r.2.2)

/-! ## Concrete artifacts used by witnesses, and decidability of Except -/

instance {ε α : Type} [DecidableEq ε] [DecidableEq α] : DecidableEq (Except ε α)
  | .error e1, .error e2 =>
    if h : e1 = e2 then .isTrue (by rw [h]) else .isFalse (fun hc => by cases hc; exact h rfl)
  | .error _, .ok _ => .isFalse (fun hc => by cases hc)
  | .ok _, .error _ => .isFalse (fun hc => by cases hc)
  | .ok a1, .ok a2 =>
    if h : a1 = a2 then .isTrue (by rw [h]) else .isFalse (fun hc => by cases hc; exact h rfl)

/-- An object body with the three validated fields (used to quantify over
otherwise-valid payloads). -/
def mkRecipeBody (t r rt : String) (ings steps : List JValue) : JValue :=
  .obj [("title", .str t), ("raw_text", .str r),
        ("recipe_data", .obj [("title", .str rt), ("ingredients", .arr ings),
                              ("steps", .arr steps)])]

/-- A well-formed request body carrying a stray owner_user_id field. -/
def bodyFieldsWithOwner (owner : String) : List (String × JValue) :=
  [("title", .str "Salmon with Spinach"),
   ("raw_text", .str "cook the salmon"),
   ("recipe_data", .obj
     [("title", .str "Salmon with Spinach"),
      ("ingredients", .arr [.obj [("name", .str "salmon"), ("quantity", .num (some 200))]]),
      ("steps", .arr [.str "Cook salmon for 10 minutes."])]),
   ("owner_user_id", .str owner)]

/-- An ingredient entry whose unit_id is present and truthy but not a
well-formed UUID (36 letters a, no hyphen structure). -/
def charsetOnlyUnitIdEntry : JValue :=
  .obj [("name", .str "salmon"), ("quantity", .num (some 200)),
        ("unit_id", .str "aaaaaaaaaaaaaaaaaaaaaaaaaaaaaaaaaaaa")]

/-- A registered validator that rejects every payload, for the C5 witness. -/
def rejectAllValidator : AjvValidator :=
  { valid := fun _ => false, errors := fun _ => ["type mismatch"] }

/-- A response-format spec naming the registered schema, for the C5
witness. -/
def nutritionFormatSpec : ResponseFormatSpec :=
  { name := "ingredient_nutrition_list", schema := .null }

/-! ## Claims about the recipe-creation write path -/

/-- Claim C1: if the recipe-row insert succeeds and the ingredient bulk
insert fails, createRecipe deletes the just-inserted recipe row (no recipe
row with the new id remains persisted) and propagates the failure as an
error — it never returns normally. -/
theorem createRecipe_compensating_delete (faults : DbFaults) (uuid : Nat → String)
    (userId : String) (cmd : CreateRecipeCommand) (db : DbState) (m : String)
    (h1 : faults.recipeInsertError = none)
    (h2 : faults.ingredientsInsertError = some m) :
    (createRecipe faults uuid userId cmd db).1 =
      .error ("Failed to insert ingredients: " ++ m) ∧
    ∀ row ∈ (createRecipe faults uuid userId cmd db).2.recipes, row.id ≠ uuid 0 := by
  constructor
  · simp [createRecipe, h1, h2]
  · intro row hrow
    simp only [createRecipe, h1, h2, List.mem_filter] at hrow
    simpa using hrow.2

/-- Claim C1 witness: a concrete run with a failing ingredient insert. -/
theorem createRecipe_compensating_delete_witness :
    (createRecipe { ingredientsInsertError := some "duplicate key" } (fun n => toString n)
        "user-1" { title := "T", raw_text := "R",
                   recipe_data := { title := "T", ingredients := [], steps := [] } }
        { recipes := [], ingredients := [], recipe_audit := [] }).1 =
      .error ("Failed to insert ingredients: " ++ "duplicate key") :=
  (createRecipe_compensating_delete _ _ _ _ _ _ rfl rfl).1

/-- Claim C3: when both inserts succeed, the response's recipe_data is
exactly the submitted recipe_data and its cached_nutrition is null. -/
theorem createRecipe_recipeData_roundtrip (faults : DbFaults) (uuid : Nat → String)
    (userId : String) (cmd : CreateRecipeCommand) (db : DbState)
    (h1 : faults.recipeInsertError = none)
    (h2 : faults.ingredientsInsertError = none) :
    ∃ resp db2, createRecipe faults uuid userId cmd db = (.ok resp, db2) ∧
      resp.recipe_data = cmd.recipe_data ∧ resp.cached_nutrition = none := by
  unfold createRecipe
  rw [h1, h2]
  exact ⟨_, _, rfl, rfl, rfl⟩

/-- Claim C3 witness: a concrete successful run. -/
theorem createRecipeRoundtripWitness :
    ∃ resp db2,
      createRecipe {} (fun n => toString n) "user-1"
          { title := "T", raw_text := "R",
            recipe_data := { title := "T",
                             ingredients := [{ name := "salmon", quantity := 200 }],
                             steps := ["Cook it well for ten minutes."] } }
          { recipes := [], ingredients := [], recipe_audit := [] } = (.ok resp, db2) ∧
        resp.recipe_data = { title := "T",
                             ingredients := [{ name := "salmon", quantity := 200 }],
                             steps := ["Cook it well for ten minutes."] } ∧
        resp.cached_nutrition = none :=
  createRecipe_recipeData_roundtrip _ _ _ _ _ rfl rfl

/-- createRecipe reads only title, raw_text and recipe_data off the command:
two commands equal on those three fields produce identical results,
whatever owner_user_id the request body carried. -/
theorem createRecipe_ext (faults : DbFaults) (uuid : Nat → String) (userId : String)
    (db : DbState) (c1 c2 : CreateRecipeCommand)
    (ht : c1.title = c2.title) (hr : c1.raw_text = c2.raw_text)
    (hd : c1.recipe_data = c2.recipe_data) :
    createRecipe faults uuid userId c1 db = createRecipe faults uuid userId c2 db := by
  cases c1
  cases c2
  simp only at ht hr hd
  subst ht
  subst hr
  subst hd
  rfl

/-- The validator reads only the title, raw_text and recipe_data fields of
an object body. -/
theorem validate_reads_three_fields (f1 f2 : List (String × JValue))
    (h1 : List.lookup "title" f1 = List.lookup "title" f2)
    (h2 : List.lookup "raw_text" f1 = List.lookup "raw_text" f2)
    (h3 : List.lookup "recipe_data" f1 = List.lookup "recipe_data" f2) :
    validateCreateRecipeCommand (.obj f1) = validateCreateRecipeCommand (.obj f2) := by
  simp only [validateCreateRecipeCommand, jgetE, h1, h2, h3]

/-- Every recipe row newly persisted by createRecipe carries the userId
argument as its owner. -/
theorem createRecipe_new_rows_owner (faults : DbFaults) (uuid : Nat → String)
    (userId : String) (cmd : CreateRecipeCommand) (db : DbState) :
    ∀ row ∈ (createRecipe faults uuid userId cmd db).2.recipes,
      row ∉ db.recipes → row.owner_user_id = userId := by
  intro row hrow hnot
  rcases hre : faults.recipeInsertError with _ | m
  · rcases hie : faults.ingredientsInsertError with _ | m2
    · have hmem : row ∈ db.recipes ++
          [{ id := uuid 0, owner_user_id := userId, title := cmd.title,
             raw_text := cmd.raw_text, recipe_data := cmd.recipe_data : RecipeRow }] := by
        rcases ha : faults.auditInsertThrows with _ | _ <;>
          simpa only [createRecipe, hre, hie, ha, Bool.false_eq_true, if_false, if_true,
            ite_true, ite_false] using hrow
      rcases List.mem_append.mp hmem with h | h
      · exact absurd h hnot
      · rw [List.mem_singleton.mp h]
    · have hmem : row ∈ (db.recipes ++
          [{ id := uuid 0, owner_user_id := userId, title := cmd.title,
             raw_text := cmd.raw_text, recipe_data := cmd.recipe_data : RecipeRow }]).filter
            (fun r => r.id != uuid 0) := by
        simpa only [createRecipe, hre, hie] using hrow
      rcases List.mem_append.mp (List.mem_filter.mp hmem).1 with h | h
      · exact absurd h hnot
      · rw [List.mem_singleton.mp h]
  · simp only [createRecipe, hre] at hrow
    exact absurd hrow hnot

/-- Claim C2: two POST /api/v1/recipes bodies that agree on every field
except owner_user_id produce identical route results and states, and every
newly persisted recipe row's owner_user_id is the internal user id resolved
from the auth mapping — never a body value. -/
theorem postRecipes_owner_independent_of_body (env : AuthEnv) (faults : DbFaults)
    (uuid : Nat → String) (db : DbState) (f1 f2 : List (String × JValue))
    (h : ∀ k, k ≠ "owner_user_id" → List.lookup k f1 = List.lookup k f2) :
    postRecipes env faults uuid (some (.obj f1)) db =
      postRecipes env faults uuid (some (.obj f2)) db ∧
    ∀ row ∈ (postRecipes env faults uuid (some (.obj f1)) db).2.recipes,
      row ∉ db.recipes →
      ∃ authUserId, env.tokenUser = some authUserId ∧
        row.owner_user_id = resolveUserId env authUserId := by
  have ht := h "title" (by decide)
  have hw := h "raw_text" (by decide)
  have hd := h "recipe_data" (by decide)
  have hval := validate_reads_three_fields f1 f2 ht hw hd
  have hcr : ∀ uid, createRecipe faults uuid uid (decodeCmd (.obj f1)) db =
      createRecipe faults uuid uid (decodeCmd (.obj f2)) db := fun uid =>
    createRecipe_ext faults uuid uid db _ _
      (by simp [decodeCmd, jfieldOpt, ht])
      (by simp [decodeCmd, jfieldOpt, hw])
      (by simp [decodeCmd, jfieldOpt, hd])
  constructor
  · simp only [postRecipes, hval, hcr]
  · intro row hrow hnot
    rcases henv : env.tokenUser with _ | authUserId
    · -- no authenticated user: the route never reaches createRecipe
      exfalso
      rcases hv : validateCreateRecipeCommand (JValue.obj f1) with e | vr
      · simp only [postRecipes, hv] at hrow
        exact hnot hrow
      · rcases vr with _ | errs
        · simp only [postRecipes, hv, henv] at hrow
          exact hnot hrow
        · simp only [postRecipes, hv] at hrow
          exact hnot hrow
    · rcases hv : validateCreateRecipeCommand (JValue.obj f1) with e | vr
      · exfalso
        simp only [postRecipes, hv] at hrow
        exact hnot hrow
      · rcases vr with _ | errs
        · by_cases hmf : env.mappingFails
          · exfalso
            simp only [postRecipes, hv, henv, hmf, if_true] at hrow
            exact hnot hrow
          · refine ⟨authUserId, rfl, ?_⟩
            have hstate : (postRecipes env faults uuid (some (.obj f1)) db).2 =
                (createRecipe faults uuid (resolveUserId env authUserId)
                  (decodeCmd (.obj f1)) db).2 := by
              simp only [postRecipes, hv, henv, hmf, if_false]
              rcases createRecipe faults uuid (resolveUserId env authUserId)
                  (decodeCmd (.obj f1)) db with ⟨res, db2⟩
              cases res <;> rfl
            rw [hstate] at hrow
            exact createRecipe_new_rows_owner faults uuid _ _ db row hrow hnot
        · exfalso
          simp only [postRecipes, hv] at hrow
          exact hnot hrow

/-- Claim C2 witness: two concrete bodies that differ only in the
owner_user_id field lead to identical route outcomes and states. -/
theorem postRecipes_owner_independent_of_body_witness :
    postRecipes { tokenUser := some "auth-1", authUserMap := [("auth-1", "user-42")] } {}
        (fun n => toString n) (some (.obj (bodyFieldsWithOwner "evil-owner")))
        { recipes := [], ingredients := [], recipe_audit := [] } =
      postRecipes { tokenUser := some "auth-1", authUserMap := [("auth-1", "user-42")] } {}
        (fun n => toString n) (some (.obj (bodyFieldsWithOwner "other-owner")))
        { recipes := [], ingredients := [], recipe_audit := [] } :=
  (postRecipes_owner_independent_of_body _ _ _ _ _ _ (by
    intro k hk
    have hbeq : (k == "owner_user_id") = false := beq_eq_false_iff_ne.mpr hk
    simp only [bodyFieldsWithOwner, List.lookup, hbeq])).1

/-! ## Claims about the request validator -/

/-- Bind on Except reduces on an ok value (reduction helper for the monadic
validator). -/
theorem exceptBindOk {e a b : Type} (x : a) (f : a → Except e b) :
    (Except.ok x >>= f : Except e b) = f x := rfl

/-- Pure on Except is ok (reduction helper). -/
theorem exceptPureEq {e a : Type} (x : a) : (pure x : Except e a) = Except.ok x := rfl

/-- validateIngredient never throws: whatever the entry value, it reports
either acceptance or a message. -/
theorem validateIngredient_isOk (item : JValue) (index : Nat) :
    ∃ r, validateIngredient item index = .ok r := by
  cases item <;> exact ⟨_, rfl⟩

/-- The ingredient loop never throws. -/
theorem checkIngredientsFrom_isOk (ings : List JValue) :
    ∀ idx, ∃ r, checkIngredientsFrom ings idx = .ok r := by
  induction ings with
  | nil => exact fun idx => ⟨[], rfl⟩
  | cons ing rest ih =>
    intro idx
    obtain ⟨e, he⟩ := validateIngredient_isOk ing idx
    obtain ⟨r, hr⟩ := ih (idx + 1)
    cases e with
    | none => exact ⟨r, by simp [checkIngredientsFrom, he, hr, exceptBindOk, exceptPureEq]⟩
    | some msg =>
      exact ⟨("recipe_data.ingredients[" ++ toString idx ++ "]", msg) :: r,
        by simp [checkIngredientsFrom, he, hr, exceptBindOk, exceptPureEq]⟩

/-- The ingredients field check never throws. -/
theorem ingredientsCheck_isOk (v : JValue) : ∃ r, ingredientsCheck v = .ok r := by
  cases v with
  | arr ings =>
    by_cases hlen : ings.length = 0
    · exact ⟨[("recipe_data.ingredients", "ingredients must be a non-empty array")],
        by simp [ingredientsCheck, hlen, exceptPureEq]⟩
    · obtain ⟨r, hr⟩ := checkIngredientsFrom_isOk ings 0
      exact ⟨r, by simp [ingredientsCheck, hlen, hr, exceptBindOk, exceptPureEq]⟩
  | null => exact ⟨_, rfl⟩
  | undefVal => exact ⟨_, rfl⟩
  | bool b => exact ⟨_, rfl⟩
  | num q => exact ⟨_, rfl⟩
  | str s => exact ⟨_, rfl⟩
  | obj fields => exact ⟨_, rfl⟩

/-- The recipe_data block never throws. -/
theorem recipeDataCheck_isOk (v : JValue) : ∃ r, recipeDataCheck v = .ok r := by
  cases v with
  | arr xs => exact ⟨_, rfl⟩
  | obj fields =>
    obtain ⟨r, hr⟩ := ingredientsCheck_isOk ((List.lookup "ingredients" fields).getD .undefVal)
    exact ⟨rdTitleCheck ((List.lookup "title" fields).getD .undefVal) ++
        (r ++ stepsCheck ((List.lookup "steps" fields).getD .undefVal)),
      by simp [recipeDataCheck, jgetE, hr, exceptBindOk, exceptPureEq]⟩
  | null => exact ⟨_, rfl⟩
  | undefVal => exact ⟨_, rfl⟩
  | bool b => exact ⟨_, rfl⟩
  | num q => exact ⟨_, rfl⟩
  | str s => exact ⟨_, rfl⟩

/-- Claim C6: validateCreateRecipeCommand is total on arbitrary runtime
values — it always returns a ValidationResult and never throws (never hits
the TypeError branch of a property read); any non-object input is reported
as the body-level validation failure, not an exception. -/
theorem validateCreateRecipeCommand_total :
    (∀ v, (validateCreateRecipeCommand v).isOk = true) ∧
    (∀ v, (truthy v && typeofIsObject v) = false →
      validateCreateRecipeCommand v =
        .ok (.invalid [("body", "Request body must be a JSON object")])) := by
  constructor
  · intro v
    cases v with
    | arr xs =>
      obtain ⟨r, hr⟩ := recipeDataCheck_isOk JValue.undefVal
      simp [validateCreateRecipeCommand, jgetE, hr, exceptBindOk, exceptPureEq, Except.isOk, Except.toBool]
    | obj fields =>
      obtain ⟨r, hr⟩ := recipeDataCheck_isOk ((List.lookup "recipe_data" fields).getD .undefVal)
      simp [validateCreateRecipeCommand, jgetE, hr, exceptBindOk, exceptPureEq, Except.isOk, Except.toBool]
    | null => rfl
    | undefVal => rfl
    | bool b => rfl
    | num q => rfl
    | str s => rfl
  · intro v hv
    cases v with
    | arr xs => simp [truthy, typeofIsObject] at hv
    | obj fields => simp [truthy, typeofIsObject] at hv
    | null => rfl
    | undefVal => rfl
    | bool b => rfl
    | num q => rfl
    | str s => rfl

/-- Claim C6 witness: a number body is a validation failure, not a throw. -/
theorem validateCreateRecipeCommandTotalWitness :
    validateCreateRecipeCommand (.num (some 5)) =
      .ok (.invalid [("body", "Request body must be a JSON object")]) :=
  validateCreateRecipeCommand_total.2 (.num (some 5)) (by decide)

/-- On an otherwise-valid body the validator's verdict is decided by the
steps loop alone. -/
theorem validate_mkRecipeBody (t r rt : String) (ings steps : List JValue)
    (h1 : ¬ (jsTrim t).length = 0) (h2 : ¬ t.length > 300)
    (h3 : ¬ (jsTrim r).length = 0) (h4 : ¬ (jsTrim rt).length = 0)
    (h5 : ¬ ings.length = 0) (h6 : checkIngredientsFrom ings 0 = .ok []) :
    validateCreateRecipeCommand (mkRecipeBody t r rt ings steps) =
      .ok (if checkStepsFrom steps 0 = [] then .valid
           else .invalid (checkStepsFrom steps 0)) := by
  simp [validateCreateRecipeCommand, mkRecipeBody, jgetE, List.lookup, recipeDataCheck,
    titleCheck, rawTextCheck, rdTitleCheck, ingredientsCheck, stepsCheck, h1, h2, h3, h4, h5,
    h6, exceptBindOk, exceptPureEq]

/-- A step is accepted exactly when it is a string of length 10 to 500. -/
theorem stepError_eq_none_iff (s : JValue) :
    stepError s = none ↔ ∃ u, s = JValue.str u ∧ 10 ≤ u.length ∧ u.length ≤ 500 := by
  cases s <;> simp [stepError]
  case str u =>
    constructor
    · intro h
      by_cases ha : u.length < 10
      · simp [ha] at h
      · by_cases hb : u.length > 500
        · simp [ha, hb] at h
        · omega
    · intro h
      have ha : ¬ u.length < 10 := by omega
      have hb : ¬ u.length > 500 := by omega
      simp [ha, hb]

/-- The steps loop reports nothing exactly when every step is accepted. -/
theorem checkStepsFrom_eq_nil_iff (steps : List JValue) :
    ∀ k, checkStepsFrom steps k = [] ↔ ∀ s ∈ steps, stepError s = none := by
  induction steps with
  | nil => intro k; simp [checkStepsFrom]
  | cons s rest ih =>
    intro k
    cases hs : stepError s with
    | some msg => simp [checkStepsFrom, hs]
    | none => simp [checkStepsFrom, hs, ih (k + 1)]

/-- A key that occurs in an assignment list is found by lookup. -/
theorem lookupIsSomeOfKey (l : List (String × String)) (key : String) :
    (∃ p ∈ l, p.1 = key) → (List.lookup key l).isSome = true := by
  induction l with
  | nil => rintro ⟨p, hp, _⟩; cases hp
  | cons hd tl ih =>
    rintro ⟨p, hp, hkey⟩
    obtain ⟨k0, v0⟩ := hd
    rcases hbeq : (key == k0) with _ | _
    · rcases List.mem_cons.mp hp with hp2 | hp2
      · exfalso
        rw [hp2] at hkey
        simp only at hkey
        rw [hkey] at hbeq
        simp at hbeq
      · have := ih ⟨p, hp2, hkey⟩
        simpa [List.lookup, hbeq] using this
    · simp [List.lookup, hbeq]

/-- A failing step at index i puts its key into the steps-loop report. -/
theorem checkStepsFrom_key (steps : List JValue) :
    ∀ k i s msg, steps.get? i = some s → stepError s = some msg →
      ∃ p ∈ checkStepsFrom steps k,
        p.1 = "recipe_data.steps[" ++ toString (k + i) ++ "]" := by
  induction steps with
  | nil => intro k i s msg h _; simp at h
  | cons hd tl ih =>
    intro k i s msg hi he
    cases i with
    | zero =>
      simp only [List.get?_cons_zero, Option.some.injEq] at hi
      subst hi
      refine ⟨("recipe_data.steps[" ++ toString k ++ "]", msg), ?_, by simp⟩
      simp [checkStepsFrom, he]
    | succ i2 =>
      simp only [List.get?_cons_succ] at hi
      obtain ⟨p, hp, hkey⟩ := ih (k + 1) i2 s msg hi he
      have harith : k + 1 + i2 = k + (i2 + 1) := by omega
      rw [harith] at hkey
      cases hs : stepError hd with
      | some msg2 => exact ⟨p, by simp [checkStepsFrom, hs, hp], hkey⟩
      | none => exact ⟨p, by simp [checkStepsFrom, hs] at hp ⊢; exact hp, hkey⟩

/-- Claim C7: on an otherwise-valid payload, validation accepts exactly when
every step is a string of length between 10 and 500 inclusive, and a step
whose length is out of bounds (such as 9 or 501) yields an error keyed by
that step's index. -/
theorem validate_step_length_bounds (t r rt : String) (ings steps : List JValue)
    (h1 : ¬ (jsTrim t).length = 0) (h2 : ¬ t.length > 300)
    (h3 : ¬ (jsTrim r).length = 0) (h4 : ¬ (jsTrim rt).length = 0)
    (h5 : ¬ ings.length = 0) (h6 : checkIngredientsFrom ings 0 = .ok []) :
    (validateCreateRecipeCommand (mkRecipeBody t r rt ings steps) = .ok .valid ↔
      ∀ s ∈ steps, ∃ u, s = JValue.str u ∧ 10 ≤ u.length ∧ u.length ≤ 500) ∧
    (∀ i u, steps.get? i = some (JValue.str u) → ¬ (10 ≤ u.length ∧ u.length ≤ 500) →
      ∃ errs, validateCreateRecipeCommand (mkRecipeBody t r rt ings steps) =
          .ok (.invalid errs) ∧
        (List.lookup ("recipe_data.steps[" ++ toString i ++ "]") errs).isSome = true) := by
  have hred := validate_mkRecipeBody t r rt ings steps h1 h2 h3 h4 h5 h6
  constructor
  · rw [hred]
    by_cases hcs : checkStepsFrom steps 0 = []
    · rw [if_pos hcs]
      constructor
      · intro _ s hs
        exact (stepError_eq_none_iff s).mp (((checkStepsFrom_eq_nil_iff steps 0).mp hcs) s hs)
      · intro _
        rfl
    · rw [if_neg hcs]
      constructor
      · intro hcontra
        exact absurd (Except.ok.inj hcontra) (by simp)
      · intro hall
        exact absurd ((checkStepsFrom_eq_nil_iff steps 0).mpr
          (fun s hs => (stepError_eq_none_iff s).mpr (hall s hs))) hcs
  · intro i u hi hrange
    have hse : ∃ msg, stepError (JValue.str u) = some msg := by
      by_cases ha : u.length < 10
      · exact ⟨"step too short (min 10 chars)", by simp [stepError, ha]⟩
      · have hb : u.length > 500 := by omega
        exact ⟨"step too long (max 500 chars)", by simp [stepError, ha, hb]⟩
    obtain ⟨msg, hmsg⟩ := hse
    obtain ⟨p, hp, hkey⟩ := checkStepsFrom_key steps 0 i _ msg hi hmsg
    have hne : ¬ checkStepsFrom steps 0 = [] := by
      intro hcs
      rw [hcs] at hp
      cases hp
    refine ⟨checkStepsFrom steps 0, ?_, ?_⟩
    · rw [hred, if_neg hne]
    · rw [Nat.zero_add] at hkey
      exact lookupIsSomeOfKey _ _ ⟨p, hp, hkey⟩

/-- Claim C7 witness: a concrete otherwise-valid payload with a 5-character
step is rejected with an error keyed at index 0. -/
theorem validateStepLengthBoundsWitness :
    ∃ errs, validateCreateRecipeCommand (mkRecipeBody "My recipe" "raw text" "My recipe"
        [.obj [("name", .str "salmon"), ("quantity", .num (some 200))]] [.str "short"]) =
        .ok (.invalid errs) ∧
      (List.lookup ("recipe_data.steps[" ++ toString 0 ++ "]") errs).isSome = true :=
  (validate_step_length_bounds _ _ _ _ _ (by decide) (by decide) (by decide) (by decide)
    (by decide) (by decide)).2 0 "short" rfl (by decide)

/-- Claim C10: a payload that is valid everywhere else and has an empty
steps array is accepted, while — unlike steps — an empty ingredients array
is rejected. -/
theorem validate_empty_steps_accepted (t r rt : String) (ings : List JValue)
    (h1 : ¬ (jsTrim t).length = 0) (h2 : ¬ t.length > 300)
    (h3 : ¬ (jsTrim r).length = 0) (h4 : ¬ (jsTrim rt).length = 0)
    (h5 : ¬ ings.length = 0) (h6 : checkIngredientsFrom ings 0 = .ok []) :
    validateCreateRecipeCommand (mkRecipeBody t r rt ings []) = .ok .valid ∧
    validateCreateRecipeCommand (mkRecipeBody t r rt [] []) =
      .ok (.invalid [("recipe_data.ingredients", "ingredients must be a non-empty array")]) := by
  constructor
  · rw [validate_mkRecipeBody t r rt ings [] h1 h2 h3 h4 h5 h6]
    rfl
  · simp [validateCreateRecipeCommand, mkRecipeBody, jgetE, List.lookup, recipeDataCheck,
      titleCheck, rawTextCheck, rdTitleCheck, ingredientsCheck, stepsCheck, checkStepsFrom,
      h1, h2, h3, h4, exceptBindOk, exceptPureEq]

/-- Claim C10 witness: a concrete otherwise-valid payload with zero steps is
accepted. -/
theorem validateEmptyStepsWitness :
    validateCreateRecipeCommand (mkRecipeBody "My recipe" "raw text" "My recipe"
        [.obj [("name", .str "salmon"), ("quantity", .num (some 200))]] []) = .ok .valid :=
  (validate_empty_steps_accepted _ _ _ _ (by decide) (by decide) (by decide) (by decide)
    (by decide) (by decide)).1

/-- Claim C8 counterexample: validateIngredient accepts an entry whose
present, truthy unit_id is not a well-formed UUID — the source's isUuid
checks only length 36 and the hex-or-hyphen character set, not the
canonical hyphen positions. -/
theorem validateIngredientAcceptsNonUuid :
    validateIngredient charsetOnlyUnitIdEntry 0 = .ok none ∧
    wellFormedUuid36 "aaaaaaaaaaaaaaaaaaaaaaaaaaaaaaaaaaaa" = false ∧
    truthy (JValue.str "aaaaaaaaaaaaaaaaaaaaaaaaaaaaaaaaaaaa") = true := by
  refine ⟨by decide, by decide, by decide⟩

/-- The unit_id check of the hoisted field checks: a truthy unit_id failing
the charset test forces a report; an accepted entry's truthy unit_id passed
the charset test. -/
theorem ingredientFieldError_unit (nameV qV uidV utV nnV : JValue) (index : Nat)
    (ht : truthy uidV = true) :
    (isUuid uidV = false → (ingredientFieldError nameV qV uidV utV nnV index).isSome = true) ∧
    (ingredientFieldError nameV qV uidV utV nnV index = none → isUuid uidV = true) := by
  unfold ingredientFieldError
  cases nameV <;> simp
  case str nm =>
    by_cases hn1 : (jsTrim nm).length = 0
    · simp [hn1]
    · by_cases hn2 : nm.length > 200
      · simp [hn1, hn2]
      · rcases qV with _ | _ | b | q | s | xs | fs
        · simp [hn1, hn2]
        · simp [hn1, hn2]
        · simp [hn1, hn2]
        · rcases q with _ | qv
          · simp [hn1, hn2]
          · by_cases hq : qv ≤ 0
            · simp [hn1, hn2, hq]
            · by_cases hu2 : isUuid uidV = true
              · simp [hn1, hn2, hq, ht, hu2]
              · simp [hn1, hn2, hq, ht, hu2]
        · simp [hn1, hn2]
        · simp [hn1, hn2]
        · simp [hn1, hn2]

/-- Claim C8 amended: an ingredient entry carrying a truthy unit_id is
accepted only if that unit_id passes the source's charset-only test (a
36-character string of hex digits and hyphens in any arrangement, per the
third conjunct); a truthy unit_id failing that test makes validateIngredient
report an error for that entry. -/
theorem validateIngredient_unitId_charset (fields : List (String × JValue)) (index : Nat)
    (uid : JValue) (hu : List.lookup "unit_id" fields = some uid)
    (ht : truthy uid = true) :
    (isUuid uid = false → ∃ msg, validateIngredient (.obj fields) index = .ok (some msg)) ∧
    (validateIngredient (.obj fields) index = .ok none → isUuid uid = true) ∧
    (∀ s, isUuid (JValue.str s) = (s.length == 36 && s.data.all isUuidChar)) := by
  have hv : validateIngredient (JValue.obj fields) index =
      .ok (ingredientFieldError ((List.lookup "name" fields).getD .undefVal)
            ((List.lookup "quantity" fields).getD .undefVal) uid
            ((List.lookup "unit_text" fields).getD .undefVal)
            ((List.lookup "normalized_name" fields).getD .undefVal) index) := by
    simp [validateIngredient, jgetE, hu, exceptBindOk, exceptPureEq]
  obtain ⟨c1, c2⟩ := ingredientFieldError_unit
    ((List.lookup "name" fields).getD .undefVal)
    ((List.lookup "quantity" fields).getD .undefVal) uid
    ((List.lookup "unit_text" fields).getD .undefVal)
    ((List.lookup "normalized_name" fields).getD .undefVal) index ht
  refine ⟨?_, ?_, fun s => rfl⟩
  · intro hfalse
    obtain ⟨msg, hmsg⟩ := Option.isSome_iff_exists.mp (c1 hfalse)
    exact ⟨msg, by rw [hv, hmsg]⟩
  · intro hnone
    rw [hv] at hnone
    exact c2 (Except.ok.inj hnone)

/-- Claim C8 amended witness: a concrete entry with a truthy non-matching
unit_id is rejected. -/
theorem validateIngredientUnitIdCharsetWitness :
    ∃ msg, validateIngredient (JValue.obj [("name", JValue.str "salmon"),
        ("quantity", JValue.num (some 200)), ("unit_id", JValue.str "not-a-uuid")]) 0 =
      .ok (some msg) :=
  (validateIngredient_unitId_charset
    [("name", JValue.str "salmon"), ("quantity", JValue.num (some 200)),
     ("unit_id", JValue.str "not-a-uuid")] 0 (JValue.str "not-a-uuid") rfl rfl).1 rfl

/-! ## Claims about the enrichment client -/

/-- When every attempt fails with the same retriable error, the loop makes
one attempt per unit of remaining budget plus the initial one and surfaces
that error. -/
theorem retryAux_const_error {α : Type} (fn : Nat → Except ORError α) (rand : Nat → ℚ)
    (e : ORError) (hf : ∀ n, fn n = .error e) (hr : isRetriableError e = true) :
    ∀ remaining attempt,
      (retryAux fn rand remaining attempt).1 = .error e ∧
      (retryAux fn rand remaining attempt).2.1 = attempt + remaining + 1 := by
  intro remaining
  induction remaining with
  | zero =>
    intro attempt
    simp [retryAux, hf attempt]
  | succ r ih =>
    intro attempt
    have hrec := ih (attempt + 1)
    have hne : ¬ isRetriableError e = false := by simp [hr]
    constructor
    · simp [retryAux, hf attempt, hne, hrec.1]
    · simp [retryAux, hf attempt, hne, hrec.2]
      omega

/-- Each recorded wait follows the backoff formula at its retry index. -/
theorem retryAux_waits {α : Type} (fn : Nat → Except ORError α) (rand : Nat → ℚ) :
    ∀ remaining attempt k w,
      (retryAux fn rand remaining attempt).2.2[k]? = some w →
      w = min 2000 (300 * 2 ^ (attempt + 1 + k)) + rand (attempt + 1 + k) * 100 := by
  intro remaining
  induction remaining with
  | zero =>
    intro attempt k w h
    rcases hfn : fn attempt with e | a <;> simp [retryAux, hfn] at h
  | succ r ih =>
    intro attempt k w h
    rcases hfn : fn attempt with e | a
    · by_cases hre : isRetriableError e = false
      · simp [retryAux, hfn, hre] at h
      · simp [retryAux, hfn, hre] at h
        cases k with
        | zero =>
          simp at h
          rw [Nat.add_zero]
          exact h.symm
        | succ k2 =>
          simp at h
          have hrec := ih (attempt + 1) k2 w h
          have harith : attempt + 1 + 1 + k2 = attempt + 1 + (k2 + 1) := by omega
          rw [harith] at hrec
          exact hrec
    · simp [retryAux, hfn] at h

/-- The loop makes at most one attempt more than its remaining budget. -/
theorem retryAux_attempts {α : Type} (fn : Nat → Except ORError α) (rand : Nat → ℚ) :
    ∀ remaining attempt, (retryAux fn rand remaining attempt).2.1 ≤ attempt + remaining + 1 := by
  intro remaining
  induction remaining with
  | zero =>
    intro attempt
    rcases hfn : fn attempt with e | a <;> simp [retryAux, hfn]
  | succ r ih =>
    intro attempt
    rcases hfn : fn attempt with e | a
    · by_cases hre : isRetriableError e = false
      · simp [retryAux, hfn, hre]
      · have hrec := ih (attempt + 1)
        simp [retryAux, hfn, hre]
        omega
    · simp [retryAux, hfn]

/-- The loop performs at most one retry (and so records at most one wait)
per unit of remaining budget. -/
theorem retryAux_waits_length {α : Type} (fn : Nat → Except ORError α) (rand : Nat → ℚ) :
    ∀ remaining attempt, (retryAux fn rand remaining attempt).2.2.length ≤ remaining := by
  intro remaining
  induction remaining with
  | zero =>
    intro attempt
    rcases hfn : fn attempt with e | a <;> simp [retryAux, hfn]
  | succ r ih =>
    intro attempt
    rcases hfn : fn attempt with e | a
    · by_cases hre : isRetriableError e = false
      · simp [retryAux, hfn, hre]
      · have hrec := ih (attempt + 1)
        simp [retryAux, hfn, hre]
        omega
    · simp [retryAux, hfn]

/-- Claim C4: when every HTTP attempt of a sendMessage call yields status
429 with the same Retry-After header, the client makes exactly maxRetries
additional attempts after the first (1 + maxRetries attempts in total, not
more) and surfaces a RateLimitError carrying the advertised retry-after
duration. -/
theorem sendMessage_429_attempt_count (cfg : ORConfig) (messages : List OpenRouterMessage)
    (hasResponseFormat : Bool) (outcomes : Nat → FetchOutcome) (rand : Nat → ℚ)
    (hdr : Option String) (d : Int)
    (hm : messages ≠ [])
    (hall : ∀ n, ∃ resp, outcomes n = .resp resp ∧ resp.status = 429 ∧
      resp.retryAfterHeader = hdr)
    (hd : parseRetryAfter hdr = some d) :
    (sendMessage cfg messages hasResponseFormat outcomes rand).1 =
      .error (.rateLimit "Rate limited by OpenRouter" (some d)) ∧
    (sendMessage cfg messages hasResponseFormat outcomes rand).2.1 = 1 + cfg.maxRetries := by
  have hfn : ∀ n, attemptOnce outcomes hasResponseFormat n =
      .error (.rateLimit "Rate limited by OpenRouter" (some d)) := by
    intro n
    obtain ⟨resp, ho, hs, hh⟩ := hall n
    simp [attemptOnce, ho, handleOpenRouterResponse, hs, hh, hd]
  have hconst := retryAux_const_error (attemptOnce outcomes hasResponseFormat) rand
    (.rateLimit "Rate limited by OpenRouter" (some d)) hfn rfl cfg.maxRetries 0
  have hme : messages.isEmpty = false := by
    cases messages with
    | nil => exact absurd rfl hm
    | cons a l => rfl
  constructor
  · simpa [sendMessage, hme, retryWithBackoff] using hconst.1
  · have := hconst.2
    simp only [Nat.zero_add] at this
    simpa [sendMessage, hme, retryWithBackoff, Nat.add_comm] using this

/-- Claim C4 witness: with maxRetries 3 and every attempt returning 429 with
Retry-After 30, exactly 4 attempts are made. -/
theorem sendMessage429AttemptCountWitness :
    (sendMessage { maxRetries := 3 } [{ role := .user, content := "hi" }] true
        (fun _ => .resp { status := 429, retryAfterHeader := some "30" })
        (fun _ => 0)).2.1 = 1 + 3 :=
  (sendMessage_429_attempt_count { maxRetries := 3 } _ true _ _ (some "30") 30
    (by simp) (fun n => ⟨_, rfl, rfl, rfl⟩) rfl).2

/-- Claim C9: every wait recorded before retry number n = k + 1 equals
min 2000 (300 * 2 ^ n) plus a jitter in [0, 100), and the loop stops at the
configured budget: at most retries + 1 attempts and at most retries waits. -/
theorem retryWithBackoff_wait_formula {α : Type} (fn : Nat → Except ORError α)
    (retries : Nat) (rand : Nat → ℚ) (hr : ∀ n, 0 ≤ rand n ∧ rand n < 1) :
    (∀ k w, (retryWithBackoff fn retries rand).2.2[k]? = some w →
      ∃ j : ℚ, 0 ≤ j ∧ j < 100 ∧ w = min 2000 (300 * 2 ^ (k + 1)) + j) ∧
    (retryWithBackoff fn retries rand).2.1 ≤ retries + 1 ∧
    (retryWithBackoff fn retries rand).2.2.length ≤ retries := by
  refine ⟨?_, ?_, ?_⟩
  · intro k w h
    have hw := retryAux_waits fn rand retries 0 k w h
    have hidx : 0 + 1 + k = k + 1 := by omega
    rw [hidx] at hw
    refine ⟨rand (k + 1) * 100, ?_, ?_, hw⟩
    · have := (hr (k + 1)).1
      positivity
    · have := (hr (k + 1)).2
      linarith
  · have := retryAux_attempts fn rand retries 0
    simpa [retryWithBackoff] using this
  · exact retryAux_waits_length fn rand retries 0

/-- Claim C9 witness: a concrete all-failing run stays within 4 attempts
for a budget of 3 retries. -/
theorem retryWithBackoffWaitFormulaWitness :
    (retryWithBackoff (fun _ => (.error (.network "down") : Except ORError Unit)) 3
        (fun _ => 1 / 2)).2.1 ≤ 3 + 1 :=
  (retryWithBackoff_wait_formula _ 3 (fun _ => 1 / 2)
    (fun _ => ⟨by norm_num, by norm_num⟩)).2.1

/-- Claim C5: with a json_schema response format whose named validator is
registered, (a) any payload sendStructuredMessage returns has passed the
schema validator; (b) a payload failing the validator makes the call fail
with a ResponseFormatError carrying the validator's failure details;
(c) the HTTP attempt count is exactly that of the inner sendMessage, so a
schema-validation failure causes no additional HTTP attempt; and
(d) a ResponseFormatError is never classified retriable. -/
theorem sendStructuredMessage_schema_validation (cfg : ORConfig)
    (validators : List (String × AjvValidator)) (compile : JValue → Option AjvValidator)
    (messages : List OpenRouterMessage) (rf : ResponseFormatSpec)
    (outcomes : Nat → FetchOutcome) (rand : Nat → ℚ) (v : AjvValidator)
    (hrf : rf.typeIsJsonSchema = true)
    (hv : List.lookup rf.name validators = some v) :
    (∀ p, (sendStructuredMessage cfg validators compile messages rf outcomes rand).1 =
        .ok p → v.valid p = true) ∧
    (∀ res, (sendMessage cfg messages true outcomes rand).1 = .ok res →
      v.valid (structuredPayloadOf res) = false →
      (sendStructuredMessage cfg validators compile messages rf outcomes rand).1 =
        .error (.responseFormat "Response did not match schema"
          (v.errors (structuredPayloadOf res)))) ∧
    ((sendStructuredMessage cfg validators compile messages rf outcomes rand).2.1 =
      (sendMessage cfg messages true outcomes rand).2.1) ∧
    (∀ msg details, isRetriableError (.responseFormat msg details) = false) := by
  rcases hS : sendMessage cfg messages true outcomes rand with ⟨sr, sn, sw⟩
  rcases sr with e | res
  · refine ⟨?_, ?_, ?_, fun msg details => rfl⟩
    · intro p hp
      simp [sendStructuredMessage, hrf, hS] at hp
    · intro res hres
      simp at hres
    · simp [sendStructuredMessage, hrf, hS]
  · by_cases hval : v.valid (structuredPayloadOf res) = true
    · refine ⟨?_, ?_, ?_, fun msg details => rfl⟩
      · intro p hp
        simp [sendStructuredMessage, hrf, hS, hv, hval] at hp
        rw [← hp]
        exact hval
      · intro res2 hres2 hbad
        have hr2 : res = res2 := Except.ok.inj hres2
        rw [← hr2] at hbad
        rw [hval] at hbad
        cases hbad
      · simp [sendStructuredMessage, hrf, hS, hv, hval]
    · have hvalf : v.valid (structuredPayloadOf res) = false := by
        cases hb : v.valid (structuredPayloadOf res)
        · rfl
        · exact absurd hb hval
      refine ⟨?_, ?_, ?_, fun msg details => rfl⟩
      · intro p hp
        simp [sendStructuredMessage, hrf, hS, hv, hvalf] at hp
      · intro res2 hres2 _
        have hr2 : res = res2 := Except.ok.inj hres2
        rw [← hr2]
        simp [sendStructuredMessage, hrf, hS, hv, hvalf]
      · simp [sendStructuredMessage, hrf, hS, hv, hvalf]

/-- Claim C5 witness: a concrete run whose provider answer fails schema
validation surfaces a ResponseFormatError with the validator's details. -/
theorem sendStructuredMessageSchemaValidationWitness :
    (sendStructuredMessage { maxRetries := 3 }
        [("ingredient_nutrition_list", rejectAllValidator)] (fun _ => none)
        [{ role := .user, content := "hi" }] nutritionFormatSpec
        (fun _ => .resp { status := 200, jsonBody := some (.obj []) })
        (fun _ => 0)).1 =
      .error (.responseFormat "Response did not match schema" ["type mismatch"]) :=
  (sendStructuredMessage_schema_validation { maxRetries := 3 }
    [("ingredient_nutrition_list", rejectAllValidator)] (fun _ => none)
    [{ role := .user, content := "hi" }] nutritionFormatSpec
    (fun _ => .resp { status := 200, jsonBody := some (.obj []) })
    (fun _ => 0) rejectAllValidator rfl rfl).2.1 (.obj []) rfl rfl
